import Mathlib

/-!
# Verification of the connections-test benchmark driver

A shallow embedding, in Lean 4, of `src/main.go` from the
`brandur/connections-test` repository: a benchmark that ramps up the number of
concurrently held Postgres connections and measures transaction latency.

The embedding models:
* the global configuration constants (`numLoops`, `numTables`, `connRetries`);
* `establishConnection`, the bounded-retry connection acquisition loop;
* `run`, the workload unit (one transaction: 10 inserts, 10 point-lookups,
  10 deletes, commit), parameterised over an abstract database collaborator
  `Db` that decides the result of each database call;
* the ramp driver in `main`: per-step connection replacement, the fan-out of
  `i+1` workload-unit invocations, the aggregation of successes into the
  percentile estimator and failures into an error counter, and the
  machine-readable lines emitted on the stderr stream.

Concurrent fan-out/join is serialised: each step's emitted row is a pure
function of the complete vector of all `n` invocation outcomes, which models
the `sync.WaitGroup` barrier (the row is computed only after every outcome is
available).  Wall-clock durations are abstract non-negative nanosecond counts
supplied by the collaborator.
-/

namespace ConnTest

/-- `numLoops` from `src/main.go` line 20: ramp ceiling and connection count. -/
def numLoops : Nat := 1000

/-- `numTables` from `src/main.go` line 21: workload fan-out width. -/
def numTables : Nat := 50

/-- `connRetries` from `src/main.go` line 166. -/
def connRetries : Nat := 5

/-! ## Connection acquisition (`establishConnection`, lines 168-193) -/

/-- Result of `establishConnection`: a connection handle, an error, or the
trailing `panic("Unreachable")` on line 192 (reached only if the `for` loop
runs out of iterations without returning). -/
inductive EstablishResult where
  | conn (c : Nat)
  | err (msg : String)
  | unreachablePanic
deriving DecidableEq, Repr

/-- The body of the retry loop of `establishConnection`: `i` is the loop
counter, `fuel` the remaining iterations (`connRetries - i`).  `attempt i` is
the result of the `i`-th `db.Conn(...)` call.  On failure at `i <
connRetries-1` the code sleeps (irrelevant to the result) and retries. -/
def establishAux (attempt : Nat → Except String Nat) : Nat → Nat → EstablishResult
  | _, 0 => .unreachablePanic
  | i, fuel+1 =>
    match attempt i with
    | .ok c => .conn c
    | .error e =>
      if i = connRetries - 1 then .err ("Error opening connection: " ++ e)
      else establishAux attempt (i+1) fuel

/-- `establishConnection` from `src/main.go` lines 168-193. -/
def establishConnection (attempt : Nat → Except String Nat) : EstablishResult :=
  establishAux attempt 0 connRetries

/-! ## The percentile estimator

The percentile computation lives in the external `tachymeter` library
(`github.com/jamiealquiza/tachymeter`), which is not part of this repository;
it is modelled from the spec. -/

/-- Modelled from the spec: the 1-indexed ordinal position
`ceil(pctl/100 * count)` clamped to `[1, count]`, used by the percentile
estimator of the external tachymeter collaborator (its source is not in this
repository). -/
def percentileOrdinal (pctl count : Nat) : Nat :=
  max 1 (min count ((pctl * count + 99) / 100))

/-- Modelled from the spec: the percentile estimator of the external
tachymeter collaborator (its source is not in this repository): sort all
ingested samples ascending and pick the value at ordinal position
`percentileOrdinal pctl count`, 1-indexed.  With zero samples the reported
value is zero. -/
def percentile (pctl : Nat) (samples : List Nat) : Nat :=
  (List.insertionSort (· ≤ ·) samples).getD
    (percentileOrdinal pctl samples.length - 1) 0

/-! ## The workload unit (`run`, lines 195-251)

`run` is embedded relative to an abstract database collaborator `Db` that
decides the result of each database call the transaction makes.  Besides the
final result, the embedding records the trace of database operations a
successful transaction performs. -/

/-- The abstract database collaborator seen by one `run` invocation:
the result of `BeginTx`, of the `i`-th `INSERT ... RETURNING id`, of a
`SELECT`/`DELETE` by id, of `Commit`; the string produced by the `i`-th
`uuid.New().String()` call; and the wall-clock nanoseconds elapsed at the
end of the transaction. -/
structure Db where
  beginRes : Except String Unit
  insertRes : Nat → String → Except String Int
  selectRes : Int → Except String (Int × String)
  deleteRes : Int → Except String Unit
  commitRes : Except String Unit
  uuidName : Nat → String
  elapsed : Nat

/-- One database operation performed inside the transaction, with the table
it addresses. -/
inductive Op where
  | beginTx
  | insert (table : Nat) (name : String)
  | select (table : Nat) (id : Int)
  | delete (table : Nat) (id : Int)
  | commit
deriving DecidableEq, Repr

/-- The error returned by `run`: the spec's `TransactionError`
(begin/commit) or `QueryError` (insert/select/delete), carrying the
formatted message. -/
inductive RunError where
  | transactionError (msg : String)
  | queryError (msg : String)
deriving DecidableEq, Repr

/-- The insert loop of `run` (lines 207-220): for `i` in `[0, 10)`, generate
a name, insert it, and record the returned id.  `fuel` is the number of
remaining iterations.  Returns the captured ids and the operation trace. -/
def insertLoop (db : Db) (tableNum : Nat) : Nat → Nat → Except RunError (List Int × List Op)
  | _, 0 => .ok ([], [])
  | i, fuel+1 =>
    let name := db.uuidName i
    match db.insertRes i name with
    | .error e => .error (.queryError ("Error inserting row: " ++ e))
    | .ok id =>
      match insertLoop db tableNum (i+1) fuel with
      | .error e => .error e
      | .ok (ids, ops) => .ok (id :: ids, Op.insert tableNum name :: ops)

/-- The select loop of `run` (lines 222-232): one point-lookup per captured
id, in order. -/
def selectLoop (db : Db) (tableNum : Nat) : List Int → Except RunError (List Op)
  | [] => .ok []
  | id :: rest =>
    match db.selectRes id with
    | .error e => .error (.queryError ("Error selecting row: " ++ e))
    | .ok _ =>
      match selectLoop db tableNum rest with
      | .error e => .error e
      | .ok ops => .ok (Op.select tableNum id :: ops)

/-- The delete loop of `run` (lines 234-242): one delete per captured id,
in order. -/
def deleteLoop (db : Db) (tableNum : Nat) : List Int → Except RunError (List Op)
  | [] => .ok []
  | id :: rest =>
    match db.deleteRes id with
    | .error e => .error (.queryError ("Error deleting row: " ++ e))
    | .ok _ =>
      match deleteLoop db tableNum rest with
      | .error e => .error e
      | .ok ops => .ok (Op.delete tableNum id :: ops)

/-- `run`'s table selection, line 196: `tableNum := workerNum % numTables`. -/
def runTableNum (workerNum : Nat) : Nat := workerNum % numTables

/-- `run` from `src/main.go` lines 195-251: select the table from
`workerNum`, begin a transaction, run the three loops, commit.  On success
it returns the elapsed wall-clock duration, the captured ids and the
operation trace; on failure the error of the failing phase. -/
def run (db : Db) (workerNum : Nat) : Except RunError (Nat × List Int × List Op) :=
  let tableNum := runTableNum workerNum
  match db.beginRes with
  | .error e => .error (.transactionError ("Error beginning transaction: " ++ e))
  | .ok _ =>
    match insertLoop db tableNum 0 10 with
    | .error e => .error e
    | .ok (ids, iops) =>
      match selectLoop db tableNum ids with
      | .error e => .error e
      | .ok sops =>
        match deleteLoop db tableNum ids with
        | .error e => .error e
        | .ok dops =>
          match db.commitRes with
          | .error e =>
            .error (.transactionError ("Error committing transaction: " ++ e))
          | .ok _ =>
            .ok (db.elapsed, ids,
              Op.beginTx :: (iops ++ (sops ++ (dops ++ [Op.commit]))))

/-- An error of `run` names the phase that failed, with the constructor
matching the phase kind: begin/commit as a transaction error,
insert/select/delete as a query error. -/
def phaseClassified : RunError → Prop
  | .transactionError m =>
      (∃ c, m = "Error beginning transaction: " ++ c) ∨
      (∃ c, m = "Error committing transaction: " ++ c)
  | .queryError m =>
      (∃ c, m = "Error inserting row: " ++ c) ∨
      (∃ c, m = "Error selecting row: " ++ c) ∨
      (∃ c, m = "Error deleting row: " ++ c)

/-! ## The ramp driver (`main`, lines 89-158)

The driver is parameterised over the ramp ceiling `loops` (the source fixes
`loops = numLoops`) and over abstract collaborators: `dbs i j` is the
database behaviour seen by slot `j`'s workload-unit invocation during step
index `i`, and `dbs0 s` the behaviour seen by slot `s`'s warm-up
invocation. -/

/-- One goroutine launch of the benchmark loop: the connection slot `j` it
uses and the `workerNum` argument passed to `run`. -/
structure Invocation where
  slot : Nat
  workerNum : Nat
deriving DecidableEq, Repr

/-- The goroutine launches of step index `i` (lines 126-139): one invocation
per `j` in `[0, i+1)`, each using connection slot `j` (`conn := conns[j]`,
line 127) and passing the step index `i` as `run`'s `workerNum` argument
(line 131). -/
def stepInvocations (i : Nat) : List Invocation :=
  (List.range (i+1)).map (fun j => { slot := j, workerNum := i })

/-- The outcome of slot `j`'s workload-unit invocation during step index
`i`: the elapsed duration on success, the error otherwise (line 131). -/
def stepOutcome (dbs : Nat → Nat → Db) (i j : Nat) : Except RunError Nat :=
  match run (dbs i j) i with
  | .ok r => .ok r.1
  | .error e => .error e

/-- Whether an invocation outcome is a success. -/
def outcomeOk (o : Except RunError Nat) : Bool :=
  match o with
  | .ok _ => true
  | .error _ => false

/-- The latency samples ingested by step index `i`'s percentile estimator:
one per successful invocation, serialised in slot order (`t.AddTime`,
line 136). -/
def stepSamples (dbs : Nat → Nat → Db) (i : Nat) : List Nat :=
  (List.range (i+1)).filterMap (fun j =>
    match stepOutcome dbs i j with
    | .ok d => some d
    | .error _ => none)

/-- The value of the step's `numErrors` counter after the barrier join: one
increment per failed invocation (`atomic.AddInt32`, line 133). -/
def stepNumErrors (dbs : Nat → Nat → Db) (i : Nat) : Nat :=
  ((List.range (i+1)).filter (fun j =>
    match stepOutcome dbs i j with
    | .ok _ => false
    | .error _ => true)).length

/-- Nanoseconds rendered as seconds, as `time.Duration.Seconds()` does
(lines 155-157); modelled exactly, as a rational. -/
def seconds (ns : Nat) : ℚ := (ns : ℚ) / 1000000000

/-- The message carried by a workload-unit error. -/
def errMsg : RunError → String
  | .transactionError m => m
  | .queryError m => m

/-- One line of the stderr stream: the CSV header (line 106), a worker
error diagnostic (line 134), or a CSV data row (lines 153-157). -/
inductive StderrLine where
  | header
  | workErr (msg : String)
  | row (connections : Nat) (p50 p75 p95 : ℚ)
deriving DecidableEq, Repr

/-- The CSV data line of step index `i` (lines 153-157): the connection
count `i+1` and the three percentiles of the step's samples, in seconds. -/
def stepRowLine (dbs : Nat → Nat → Db) (i : Nat) : StderrLine :=
  .row (i+1) (seconds (percentile 50 (stepSamples dbs i)))
    (seconds (percentile 75 (stepSamples dbs i)))
    (seconds (percentile 95 (stepSamples dbs i)))

/-- The stderr lines produced during step index `i`: one diagnostic line
per failed invocation (line 134; printed inside the goroutines, hence
before the `wg.Wait()` barrier releases — serialised here in slot order),
followed by the step's CSV data line. -/
def stepStderr (dbs : Nat → Nat → Db) (i : Nat) : List StderrLine :=
  ((List.range (i+1)).filterMap (fun j =>
    match stepOutcome dbs i j with
    | .ok _ => none
    | .error e => some (StderrLine.workErr ("Error during work loop: " ++ errMsg e)))) ++
  [stepRowLine dbs i]

/-- The stderr stream of the benchmark phase with ramp ceiling `loops`
(the source runs it with `loops = numLoops`): the header (line 106)
followed by each step's lines, in ascending step order (lines 108-158). -/
def benchmarkStderr (loops : Nat) (dbs : Nat → Nat → Db) : List StderrLine :=
  StderrLine.header :: ((List.range loops).map (stepStderr dbs)).flatten

/-- The CSV data carried by a stderr line, if it is a data row. -/
def rowData : StderrLine → Option (Nat × ℚ × ℚ × ℚ)
  | .row c a b d => some (c, a, b, d)
  | _ => none

/-- Connection handles are modelled by identity numbers: the initial
establishment loop (lines 36-42) gives slot `s` the handle `s`. -/
def initialConn (s : Nat) : Nat := s

/-- The handle held by slot `s` while step index `i` is running: step `i`
begins by closing slot `i`'s connection and reacquiring it (lines
108-116), the `i`-th reacquisition yielding the fresh handle `loops + i`;
no other slot's connection is touched. -/
def connsDuring (loops : Nat) : Nat → Nat → Nat
  | 0, s => if s = 0 then loops else initialConn s
  | i+1, s => if s = i+1 then loops + (i+1) else connsDuring loops i s

/-- The warm-up pass (lines 93-99): one workload-unit invocation per slot,
sequentially, with `workerNum = slot`; any failure is raised as a panic
aborting the process (line 97, modelled as `Except.error`).  `fuel` is the
number of remaining iterations. -/
def warmupAux (dbs0 : Nat → Db) : Nat → Nat → Except RunError Unit
  | _, 0 => .ok ()
  | i, fuel+1 =>
    match run (dbs0 i) i with
    | .error e => .error e
    | .ok _ => warmupAux dbs0 (i+1) fuel

/-- The whole warm-up pass over `loops` slots (source: `loops = numLoops`). -/
def warmup (loops : Nat) (dbs0 : Nat → Db) : Except RunError Unit :=
  warmupAux dbs0 0 loops

/-- The all-success collaborator used in concrete evaluations: the `i`-th
insert returns id `i`, lookups and deletes succeed, the transaction takes 7
nanoseconds. -/
def dbOk : Db where
  beginRes := .ok ()
  insertRes := fun i _ => .ok (i : Int)
  selectRes := fun id => .ok (id, "x")
  deleteRes := fun _ => .ok ()
  commitRes := .ok ()
  uuidName := fun _ => "name"
  elapsed := 7

/-- A collaborator whose `BeginTx` always fails: every workload-unit
invocation against it fails with a transaction error. -/
def dbFail : Db where
  beginRes := .error "down"
  insertRes := fun _ _ => .error "down"
  selectRes := fun _ => .error "down"
  deleteRes := fun _ => .error "down"
  commitRes := .error "down"
  uuidName := fun _ => "name"
  elapsed := 0

/-! ## Lemmas about the retry loop -/

lemma establishAux_ok (attempt : Nat → Except String Nat) (k : Nat) (c : Nat)
    (hk : k < connRetries)
    (hfail : ∀ m, m < k → ∃ e, attempt m = Except.error e)
    (hok : attempt k = Except.ok c) :
    ∀ fuel i, i + fuel = connRetries → i ≤ k →
      establishAux attempt i fuel = .conn c := by
  intro fuel
  induction fuel with
  | zero =>
    intro i hi hik
    simp [connRetries] at hk hi
    omega
  | succ fuel ih =>
    intro i hi hik
    rcases Nat.eq_or_lt_of_le hik with rfl | hlt
    · simp [establishAux, hok]
    · obtain ⟨e, he⟩ := hfail i hlt
      have hne : i ≠ connRetries - 1 := by
        simp [connRetries] at hk ⊢; omega
      simp [establishAux, he, hne]
      exact ih (i+1) (by omega) (by omega)

lemma establishAux_err (attempt : Nat → Except String Nat) (e : Nat → String)
    (hfail : ∀ i, i < connRetries → attempt i = Except.error (e i)) :
    ∀ fuel i, i + (fuel + 1) = connRetries →
      establishAux attempt i (fuel + 1) =
        .err ("Error opening connection: " ++ e (connRetries - 1)) := by
  intro fuel
  induction fuel with
  | zero =>
    intro i hi
    have hi4 : i = connRetries - 1 := by simp [connRetries] at hi ⊢; omega
    subst hi4
    have hlast := hfail (connRetries - 1) (by simp [connRetries])
    simp [establishAux, hlast]
  | succ fuel ih =>
    intro i hi
    have hilt : i < connRetries := by omega
    have hne : i ≠ connRetries - 1 := by simp [connRetries] at hi ⊢; omega
    simp [establishAux, hfail i hilt, hne]
    exact ih (i+1) (by omega)

lemma establishAux_not_panic (attempt : Nat → Except String Nat) :
    ∀ fuel i, i + fuel = connRetries → 0 < fuel →
      establishAux attempt i fuel ≠ .unreachablePanic := by
  intro fuel
  induction fuel with
  | zero => intro i _ h; omega
  | succ fuel ih =>
    intro i hi _
    rcases hok : attempt i with e | c
    · by_cases hlast : i = connRetries - 1
      · subst hlast
        simp [establishAux, hok]
      · simp [establishAux, hok, hlast]
        have : 0 < fuel := by simp [connRetries] at hi hlast ⊢; omega
        exact ih (i+1) (by omega) this
    · simp [establishAux, hok]

/-! ## Claim theorems: connection acquisition -/

/-- C7: Connection acquisition makes at most 5 attempts: it returns a
connection as soon as any attempt `k < connRetries` succeeds (in particular,
failing the first 4 attempts and succeeding on the 5th yields success), and
after 5 consecutive failed attempts it returns a connection error naming the
last underlying cause. -/
theorem establishConnection_bounded_retry (attempt : Nat → Except String Nat) :
    (∀ k c, k < connRetries →
        (∀ m, m < k → ∃ e, attempt m = Except.error e) →
        attempt k = Except.ok c →
        establishConnection attempt = .conn c) ∧
    (∀ e : Nat → String,
        (∀ i, i < connRetries → attempt i = Except.error (e i)) →
        establishConnection attempt =
          .err ("Error opening connection: " ++ e (connRetries - 1))) := by
  constructor
  · intro k c hk hfail hok
    exact establishAux_ok attempt k c hk hfail hok connRetries 0 (by omega) (by omega)
  · intro e hfail
    exact establishAux_err attempt e hfail (connRetries - 1) 0 (by simp [connRetries])

/-- Witness for C7: a collaborator failing the first 4 attempts and
succeeding on the 5th yields the connection; one failing all 5 yields the
error naming the last cause. -/
theorem establishConnection_bounded_retry_witness :
    establishConnection (fun i => if i < 4 then Except.error "refused" else Except.ok 42) =
      .conn 42 ∧
    establishConnection (fun _ => Except.error "refused") =
      .err ("Error opening connection: " ++ "refused") :=
  ⟨(establishConnection_bounded_retry _).1 4 42 (by decide)
      (fun m hm => ⟨"refused", if_pos hm⟩) (by norm_num),
   (establishConnection_bounded_retry _).2 (fun _ => "refused") (fun _ _ => rfl)⟩

/-- C9: every execution of the retry loop returns within `connRetries`
iterations (a connection on a successful attempt, an error on the final
attempt), so the trailing `panic("Unreachable")` on line 192 can never
execute. -/
theorem establishConnection_never_panics (attempt : Nat → Except String Nat) :
    establishConnection attempt ≠ .unreachablePanic :=
  establishAux_not_panic attempt connRetries 0 (by omega) (by simp [connRetries])

/-! ## Lemmas about the workload-unit loops -/

lemma insertLoop_ok (db : Db) (t : Nat) (f : Nat → Int) :
    ∀ fuel i, (∀ m, i ≤ m → m < i + fuel → db.insertRes m (db.uuidName m) = Except.ok (f m)) →
      insertLoop db t i fuel =
        .ok ((List.range' i fuel).map f,
             (List.range' i fuel).map (fun m => Op.insert t (db.uuidName m))) := by
  intro fuel
  induction fuel with
  | zero => intro i _; simp [insertLoop]
  | succ fuel ih =>
    intro i h
    have h0 : db.insertRes i (db.uuidName i) = Except.ok (f i) := h i le_rfl (by omega)
    rw [List.range'_succ]
    simp [insertLoop, h0, ih (i+1) (fun m hm1 hm2 => h m (by omega) (by omega))]

lemma insertLoop_error (db : Db) (t : Nat) :
    ∀ fuel i e, insertLoop db t i fuel = .error e →
      ∃ c, e = .queryError ("Error inserting row: " ++ c) := by
  intro fuel
  induction fuel with
  | zero => intro i e h; simp [insertLoop] at h
  | succ fuel ih =>
    intro i e h
    rcases hins : db.insertRes i (db.uuidName i) with er | id
    · simp [insertLoop, hins] at h
      exact ⟨er, h.symm⟩
    · rcases hrec : insertLoop db t (i+1) fuel with er | p
      · simp [insertLoop, hins, hrec] at h
        exact h ▸ ih (i+1) er hrec
      · simp [insertLoop, hins, hrec] at h

lemma selectLoop_ok (db : Db) (t : Nat) :
    ∀ ids, (∀ id ∈ ids, ∃ v, db.selectRes id = Except.ok v) →
      selectLoop db t ids = .ok (ids.map (fun id => Op.select t id)) := by
  intro ids
  induction ids with
  | nil => intro _; simp [selectLoop]
  | cons id rest ih =>
    intro h
    obtain ⟨v, hv⟩ := h id (by simp)
    simp [selectLoop, hv, ih (fun x hx => h x (by simp [hx]))]

lemma selectLoop_error (db : Db) (t : Nat) :
    ∀ ids e, selectLoop db t ids = .error e →
      ∃ c, e = .queryError ("Error selecting row: " ++ c) := by
  intro ids
  induction ids with
  | nil => intro e h; simp [selectLoop] at h
  | cons id rest ih =>
    intro e h
    rcases hsel : db.selectRes id with er | v
    · simp [selectLoop, hsel] at h
      exact ⟨er, h.symm⟩
    · rcases hrec : selectLoop db t rest with er | p
      · simp [selectLoop, hsel, hrec] at h
        exact h ▸ ih er hrec
      · simp [selectLoop, hsel, hrec] at h

lemma deleteLoop_ok (db : Db) (t : Nat) :
    ∀ ids, (∀ id ∈ ids, db.deleteRes id = Except.ok ()) →
      deleteLoop db t ids = .ok (ids.map (fun id => Op.delete t id)) := by
  intro ids
  induction ids with
  | nil => intro _; simp [deleteLoop]
  | cons id rest ih =>
    intro h
    simp [deleteLoop, h id (by simp), ih (fun x hx => h x (by simp [hx]))]

lemma deleteLoop_error (db : Db) (t : Nat) :
    ∀ ids e, deleteLoop db t ids = .error e →
      ∃ c, e = .queryError ("Error deleting row: " ++ c) := by
  intro ids
  induction ids with
  | nil => intro e h; simp [deleteLoop] at h
  | cons id rest ih =>
    intro e h
    rcases hdel : db.deleteRes id with er | v
    · simp [deleteLoop, hdel] at h
      exact ⟨er, h.symm⟩
    · rcases hrec : deleteLoop db t rest with er | p
      · simp [deleteLoop, hdel, hrec] at h
        exact h ▸ ih er hrec
      · simp [deleteLoop, hdel, hrec] at h

/-! ## Claim theorem: the workload unit -/

/-- C6: on a collaborator where every call succeeds, `run` performs, inside
one transaction, 10 inserts of the generated names (capturing each returned
id), then 10 point-lookups one per captured id, then 10 deletes by id, then
a commit — all against table `workerNum % numTables` — and returns the
wall-clock duration; and every failure is classified by phase
(insert/select/delete as a query error, begin/commit as a transaction
error). -/
theorem run_workload_unit (db : Db) (w : Nat) :
    (∀ f : Nat → Int,
        db.beginRes = Except.ok () →
        (∀ i, i < 10 → db.insertRes i (db.uuidName i) = Except.ok (f i)) →
        (∀ i, i < 10 → ∃ v, db.selectRes (f i) = Except.ok v) →
        (∀ i, i < 10 → db.deleteRes (f i) = Except.ok ()) →
        db.commitRes = Except.ok () →
        run db w = .ok (db.elapsed, (List.range 10).map f,
          Op.beginTx ::
            ((List.range 10).map (fun i => Op.insert (w % numTables) (db.uuidName i)) ++
              ((List.range 10).map (fun i => Op.select (w % numTables) (f i)) ++
                ((List.range 10).map (fun i => Op.delete (w % numTables) (f i)) ++
                  [Op.commit]))))) ∧
    (∀ e, run db w = .error e → phaseClassified e) := by
  constructor
  · intro f hb hi hs hd hc
    have hins := insertLoop_ok db (w % numTables) f 10 0
      (fun m hm1 hm2 => hi m (by omega))
    rw [← List.range_eq_range'] at hins
    have hsel := selectLoop_ok db (w % numTables) ((List.range 10).map f)
      (by
        intro id hid
        simp only [List.mem_map, List.mem_range] at hid
        obtain ⟨m, hm, rfl⟩ := hid
        exact hs m hm)
    have hdel := deleteLoop_ok db (w % numTables) ((List.range 10).map f)
      (by
        intro id hid
        simp only [List.mem_map, List.mem_range] at hid
        obtain ⟨m, hm, rfl⟩ := hid
        exact hd m hm)
    simp [run, runTableNum, hb, hins, hsel, hdel, hc, List.map_map, Function.comp_def]
  · intro e h
    unfold run runTableNum at h
    rcases hb : db.beginRes with eb | u
    · simp [hb] at h
      subst h
      exact Or.inl ⟨eb, rfl⟩
    · simp only [hb] at h
      rcases hins : insertLoop db (w % numTables) 0 10 with ei | ⟨ids, iops⟩
      · simp [hins] at h
        obtain ⟨c, hc⟩ := insertLoop_error db (w % numTables) 10 0 ei hins
        subst h
        simp [hc, phaseClassified]
      · simp only [hins] at h
        rcases hsel : selectLoop db (w % numTables) ids with es | sops
        · simp [hsel] at h
          obtain ⟨c, hc⟩ := selectLoop_error db (w % numTables) ids es hsel
          subst h
          simp [hc, phaseClassified]
        · simp only [hsel] at h
          rcases hdel : deleteLoop db (w % numTables) ids with ed | dops
          · simp [hdel] at h
            obtain ⟨c, hc⟩ := deleteLoop_error db (w % numTables) ids ed hdel
            subst h
            simp [hc, phaseClassified]
          · simp only [hdel] at h
            rcases hcm : db.commitRes with ec | u2
            · simp [hcm] at h
              subst h
              simp [phaseClassified]
            · simp [hcm] at h

/-- Witness for C6: concrete evaluation of `run` on the all-success
collaborator at `workerNum = 0`. -/
theorem run_workload_unit_witness :
    run dbOk 0 = .ok (7, (List.range 10).map (fun i => (i : Int)),
      Op.beginTx ::
        ((List.range 10).map (fun _ => Op.insert 0 "name") ++
          ((List.range 10).map (fun i => Op.select 0 (i : Int)) ++
            ((List.range 10).map (fun i => Op.delete 0 (i : Int)) ++
              [Op.commit])))) :=
  (run_workload_unit dbOk 0).1 (fun i => (i : Int)) rfl (fun _ _ => rfl)
    (fun i _ => ⟨((i : Int), "x"), rfl⟩) (fun _ _ => rfl) rfl

/-! ## Claim theorems: percentile estimator -/

lemma percentileOrdinal_mono (p q c : Nat) (hpq : p ≤ q) :
    percentileOrdinal p c ≤ percentileOrdinal q c := by
  have : (p * c + 99) / 100 ≤ (q * c + 99) / 100 :=
    Nat.div_le_div_right (Nat.add_le_add_right (Nat.mul_le_mul_right c hpq) 99)
  unfold percentileOrdinal; omega

lemma percentileOrdinal_bounds (p c : Nat) (hc : 0 < c) :
    1 ≤ percentileOrdinal p c ∧ percentileOrdinal p c ≤ c := by
  unfold percentileOrdinal; omega

lemma percentile_mono (samples : List Nat) (h : 0 < samples.length)
    (p q : Nat) (hpq : p ≤ q) : percentile p samples ≤ percentile q samples := by
  set l := List.insertionSort (· ≤ ·) samples with hl
  have hlen : l.length = samples.length := List.length_insertionSort _ _
  have hsorted : l.Sorted (· ≤ ·) := List.sorted_insertionSort _ _
  have hp := percentileOrdinal_bounds p samples.length h
  have hq := percentileOrdinal_bounds q samples.length h
  have hmono := percentileOrdinal_mono p q samples.length hpq
  have hip : percentileOrdinal p samples.length - 1 < l.length := by omega
  have hiq : percentileOrdinal q samples.length - 1 < l.length := by omega
  have e1 : percentile p samples = l.get ⟨percentileOrdinal p samples.length - 1, hip⟩ := by
    simp [percentile, ← hl, List.getD_eq_getElem?_getD, List.getElem?_eq_getElem hip,
      List.get_eq_getElem]
  have e2 : percentile q samples = l.get ⟨percentileOrdinal q samples.length - 1, hiq⟩ := by
    simp [percentile, ← hl, List.getD_eq_getElem?_getD, List.getElem?_eq_getElem hiq,
      List.get_eq_getElem]
  rw [e1, e2]
  exact hsorted.rel_get_of_le (by simp [Fin.le_def]; omega)

/-- C4: on any nonempty multiset of ingested samples the percentile
computation (sort ascending, pick the 1-indexed ordinal
`ceil(pctl/100 * count)` clamped to `[1, count]`) yields
`p50 ≤ p75 ≤ p95`; and when exactly one sample `v` was ingested all three
percentiles equal `v`. -/
theorem percentile_p50_p75_p95 (samples : List Nat) (h : 0 < samples.length) :
    (percentile 50 samples ≤ percentile 75 samples ∧
      percentile 75 samples ≤ percentile 95 samples) ∧
    ∀ v : Nat, percentile 50 [v] = v ∧ percentile 75 [v] = v ∧
      percentile 95 [v] = v := by
  refine ⟨⟨percentile_mono samples h 50 75 (by omega),
           percentile_mono samples h 75 95 (by omega)⟩, ?_⟩
  intro v
  have h50 : percentileOrdinal 50 1 = 1 := by decide
  have h75 : percentileOrdinal 75 1 = 1 := by decide
  have h95 : percentileOrdinal 95 1 = 1 := by decide
  refine ⟨?_, ?_, ?_⟩ <;>
    simp [percentile, h50, h75, h95, List.insertionSort, List.orderedInsert]

/-- Witness for C4: concrete evaluation on the sample multiset `[3, 1, 2]`
and on the single-sample multiset `[7]`. -/
theorem percentile_p50_p75_p95_witness :
    percentile 50 [3, 1, 2] ≤ percentile 75 [3, 1, 2] ∧ percentile 95 [7] = 7 :=
  ⟨(percentile_p50_p75_p95 [3, 1, 2] (by decide)).1.1,
   ((percentile_p50_p75_p95 [3, 1, 2] (by decide)).2 7).2.2⟩

/-! ## Lemmas about the ramp driver -/

lemma length_filterMap_add_length_filter {α β : Type} (l : List α)
    (f : α → Option β) (g : α → Bool) (h : ∀ a, (f a).isNone = g a) :
    (l.filterMap f).length + (l.filter g).length = l.length := by
  induction l with
  | nil => simp
  | cons a t ih =>
    rcases hfa : f a with _ | b
    · have hga : g a = true := by rw [← h]; simp [hfa]
      simp [List.filterMap_cons, List.filter_cons, hfa, hga]
      omega
    · have hga : g a = false := by rw [← h]; simp [hfa]
      simp [List.filterMap_cons, List.filter_cons, hfa, hga]
      omega

lemma length_filterMap_eq_length_filter {α β : Type} (l : List α)
    (f : α → Option β) (g : α → Bool) (h : ∀ a, (f a).isSome = g a) :
    (l.filterMap f).length = (l.filter g).length := by
  induction l with
  | nil => simp
  | cons a t ih =>
    rcases hfa : f a with _ | b
    · have hga : g a = false := by rw [← h]; simp [hfa]
      simp [List.filterMap_cons, List.filter_cons, hfa, hga, ih]
    · have hga : g a = true := by rw [← h]; simp [hfa]
      simp [List.filterMap_cons, List.filter_cons, hfa, hga, ih]

lemma filterMap_rowData_stepStderr (dbs : Nat → Nat → Db) (i : Nat) :
    (stepStderr dbs i).filterMap rowData =
      [(i+1, seconds (percentile 50 (stepSamples dbs i)),
        seconds (percentile 75 (stepSamples dbs i)),
        seconds (percentile 95 (stepSamples dbs i)))] := by
  have herr : ((List.range (i+1)).filterMap (fun j =>
      match stepOutcome dbs i j with
      | .ok _ => none
      | .error e =>
        some (StderrLine.workErr ("Error during work loop: " ++ errMsg e)))).filterMap
          rowData = [] := by
    rw [List.filterMap_eq_nil_iff]
    intro a ha
    simp only [List.mem_filterMap, List.mem_range] at ha
    obtain ⟨j, hj, hja⟩ := ha
    rcases h2 : stepOutcome dbs i j with e | d <;> simp [h2] at hja
    simp [← hja, rowData]
  simp [stepStderr, List.filterMap_append, herr, stepRowLine, rowData]

lemma header_not_mem_stepStderr (dbs : Nat → Nat → Db) (i : Nat) :
    StderrLine.header ∉ stepStderr dbs i := by
  intro hmem
  simp only [stepStderr, List.mem_append, List.mem_filterMap, List.mem_range,
    List.mem_singleton] at hmem
  rcases hmem with ⟨j, hj, hja⟩ | h
  · rcases h2 : stepOutcome dbs i j with e | d <;> simp [h2] at hja
  · simp [stepRowLine] at h

lemma benchmarkStderr_rows (dbs : Nat → Nat → Db) :
    ∀ loops, (benchmarkStderr loops dbs).filterMap rowData =
      (List.range loops).map (fun i =>
        (i+1, seconds (percentile 50 (stepSamples dbs i)),
         seconds (percentile 75 (stepSamples dbs i)),
         seconds (percentile 95 (stepSamples dbs i)))) := by
  intro loops
  induction loops with
  | zero => simp [benchmarkStderr, rowData]
  | succ n ih =>
    have hexp : benchmarkStderr (n+1) dbs =
        StderrLine.header ::
          (((List.range n).map (stepStderr dbs)).flatten ++ stepStderr dbs n) := by
      simp [benchmarkStderr, List.range_succ]
    have hprev : (((List.range n).map (stepStderr dbs)).flatten).filterMap rowData =
        (List.range n).map (fun i =>
          (i+1, seconds (percentile 50 (stepSamples dbs i)),
           seconds (percentile 75 (stepSamples dbs i)),
           seconds (percentile 95 (stepSamples dbs i)))) := by
      simpa [benchmarkStderr, rowData, List.filterMap_cons] using ih
    rw [hexp]
    simp [List.filterMap_cons, rowData, List.filterMap_append, hprev,
      filterMap_rowData_stepStderr, List.range_succ]

lemma count_header_benchmarkStderr (dbs : Nat → Nat → Db) (loops : Nat) :
    (benchmarkStderr loops dbs).count StderrLine.header = 1 := by
  have hnm : StderrLine.header ∉ ((List.range loops).map (stepStderr dbs)).flatten := by
    intro hmem
    rw [List.mem_flatten] at hmem
    obtain ⟨l, hl, hml⟩ := hmem
    simp only [List.mem_map] at hl
    obtain ⟨i, _, rfl⟩ := hl
    exact header_not_mem_stepStderr dbs i hml
  simp [benchmarkStderr, List.count_cons, List.count_eq_zero.mpr hnm]

lemma flatten_map_singleton {α β : Type} (g : α → β) (l : List α) :
    (l.map (fun a => [g a])).flatten = l.map g := by
  induction l with
  | nil => simp
  | cons a t ih => simp [ih]

lemma connsDuring_of_gt (loops : Nat) : ∀ i s, i < s →
    connsDuring loops i s = initialConn s := by
  intro i
  induction i with
  | zero =>
    intro s hs
    simp only [connsDuring]
    rw [if_neg (by omega)]
  | succ i ih =>
    intro s hs
    simp only [connsDuring]
    rw [if_neg (by omega)]
    exact ih s (by omega)

lemma warmupAux_error (dbs0 : Nat → Db) :
    ∀ fuel i, (∃ k, i ≤ k ∧ k < i + fuel ∧ ∃ e, run (dbs0 k) k = Except.error e) →
      ∃ e, warmupAux dbs0 i fuel = .error e := by
  intro fuel
  induction fuel with
  | zero =>
    intro i h
    obtain ⟨k, hk1, hk2, _⟩ := h
    omega
  | succ fuel ih =>
    intro i h
    obtain ⟨k, hk1, hk2, e, he⟩ := h
    rcases hr : run (dbs0 i) i with er | v
    · exact ⟨er, by simp [warmupAux, hr]⟩
    · have hki : k ≠ i := by
        intro hh
        subst hh
        rw [he] at hr
        cases hr
      obtain ⟨e2, he2⟩ := ih (i+1) ⟨k, by omega, by omega, e, he⟩
      exact ⟨e2, by simp [warmupAux, hr, he2]⟩

/-! ## Claim theorems: the ramp driver -/

/-- C1 counterexample: in ramp step `n = 2` (step index 1), the invocation
for slot 0 does **not** use `workerNum` equal to its slot index — the code
passes the step's loop index `i`, not the goroutine's slot `j`
(line 131). -/
theorem stepInvocations_slot_mismatch :
    ¬ ∀ inv ∈ stepInvocations 1, inv.workerNum = inv.slot := by decide

/-- C1 amended: in every ramp step `n` in `[1, numLoops]`, every
participating invocation uses `workerNum = n - 1` (the step's zero-based
loop index), and therefore operates on table number `(n-1) % numTables` —
the same table for every slot of the step. -/
theorem stepInvocations_workerNum (n : Nat) (h1 : 1 ≤ n) (h2 : n ≤ numLoops) :
    ∀ inv ∈ stepInvocations (n-1), inv.workerNum = n - 1 ∧
      runTableNum inv.workerNum = (n-1) % numTables := by
  intro inv hinv
  simp only [stepInvocations, List.mem_map, List.mem_range] at hinv
  obtain ⟨j, hj, rfl⟩ := hinv
  exact ⟨rfl, rfl⟩

/-- Witness for the amended C1, at step `n = 2`, slot 0: the invocation is
`⟨slot 0, workerNum 1⟩` and addresses table `1 % numTables`. -/
theorem stepInvocations_workerNum_witness :
    (Invocation.mk 0 1).workerNum = 1 ∧
      runTableNum (Invocation.mk 0 1).workerNum = 1 % numTables :=
  stepInvocations_workerNum 2 (by norm_num) (by norm_num [numLoops])
    (Invocation.mk 0 1) (by decide)

/-- C2: step `n` launches exactly `n` workload-unit invocations, one per
slot in `[0, n)`, and the emitted result is computed from the complete
vector of all `n` outcomes (the `wg.Wait()` barrier, serialised in this
embedding): every one of the `n` terminations is accounted as either a
latency sample or an error-counter increment. -/
theorem step_launches_and_joins (dbs : Nat → Nat → Db) (n : Nat)
    (h1 : 1 ≤ n) (h2 : n ≤ numLoops) :
    (stepInvocations (n-1)).length = n ∧
    (stepInvocations (n-1)).map Invocation.slot = List.range n ∧
    (stepSamples dbs (n-1)).length + stepNumErrors dbs (n-1) = n := by
  have hn : n - 1 + 1 = n := by omega
  refine ⟨?_, ?_, ?_⟩
  · simp [stepInvocations, hn]
  · simp [stepInvocations, List.map_map, Function.comp_def, hn]
  · have hacc := length_filterMap_add_length_filter (List.range (n-1+1))
      (fun j => match stepOutcome dbs (n-1) j with
        | .ok d => some d
        | .error _ => none)
      (fun j => match stepOutcome dbs (n-1) j with
        | .ok _ => false
        | .error _ => true)
      (by intro a; rcases h : stepOutcome dbs (n-1) a with e | d <;> simp [h])
    simpa [stepSamples, stepNumErrors, hn] using hacc

/-- Witness for C2 at step `n = 1` with the all-success collaborator. -/
theorem step_launches_and_joins_witness :
    (stepInvocations 0).length = 1 ∧
    (stepInvocations 0).map Invocation.slot = List.range 1 ∧
    (stepSamples (fun _ _ => dbOk) 0).length + stepNumErrors (fun _ _ => dbOk) 0 = 1 :=
  step_launches_and_joins (fun _ _ => dbOk) 1 (by norm_num) (by norm_num [numLoops])

/-- C3 counterexample: it is not the case that every participating slot's
handle changes from one ramp step to the next: slot 0's handle while step
index 1 runs is the same handle it held while step index 0 ran (only slot
`i` is closed and reacquired at the start of step index `i`,
lines 108-116). -/
theorem conns_not_all_replaced :
    ¬ ∀ i s, i + 1 < numLoops → s ≤ i →
        connsDuring numLoops (i+1) s ≠ connsDuring numLoops i s := by
  intro h
  exact h 0 0 (by norm_num [numLoops]) le_rfl (by decide)

/-- C3 amended: at the start of ramp step `n` (step index `i = n-1`), only
slot `i`'s connection is closed and reacquired: its handle identity changes
(it also differs from the initially-established handle when `i = 0`), while
every other slot retains exactly the handle it held during the previous
step.  Slot indices are stable throughout. -/
theorem conns_slot_replacement (loops i : Nat) (hi : i + 1 < loops) :
    connsDuring loops (i+1) (i+1) ≠ connsDuring loops i (i+1) ∧
    connsDuring loops 0 0 ≠ initialConn 0 ∧
    (∀ s, s ≠ i + 1 → connsDuring loops (i+1) s = connsDuring loops i s) := by
  refine ⟨?_, ?_, ?_⟩
  · have h1 : connsDuring loops (i+1) (i+1) = loops + (i+1) := by
      simp [connsDuring]
    have h2 : connsDuring loops i (i+1) = initialConn (i+1) :=
      connsDuring_of_gt loops i (i+1) (by omega)
    rw [h1, h2]
    simp [initialConn]
    omega
  · simp [connsDuring, initialConn]
    omega
  · intro s hs
    simp [connsDuring, hs]

/-- Witness for the amended C3 with `loops = 3`, step index transition
`0 → 1`: slot 1's handle changes, slot 2's does not. -/
theorem conns_slot_replacement_witness :
    connsDuring 3 1 1 ≠ connsDuring 3 0 1 ∧
    connsDuring 3 0 0 ≠ initialConn 0 ∧
    connsDuring 3 1 2 = connsDuring 3 0 2 :=
  ⟨(conns_slot_replacement 3 0 (by norm_num)).1,
   (conns_slot_replacement 3 0 (by norm_num)).2.1,
   (conns_slot_replacement 3 0 (by norm_num)).2.2 2 (by norm_num)⟩

/-- C5: in step index `i`, the number of ingested samples equals the number
of successful invocations and the error counter equals the number of failed
invocations (so each failure contributes no sample and exactly one
increment, each success exactly one sample); every ingested sample is the
duration of some successful invocation; and the emitted percentile values
depend only on the successful samples. -/
theorem step_error_sample_contributions (i : Nat) (hi : i < numLoops) :
    ∀ dbs dbs' : Nat → Nat → Db,
      ((stepSamples dbs i).length =
          ((List.range (i+1)).filter (fun j =>
            outcomeOk (stepOutcome dbs i j))).length) ∧
      (stepNumErrors dbs i =
          ((List.range (i+1)).filter (fun j =>
            !outcomeOk (stepOutcome dbs i j))).length) ∧
      (∀ s ∈ stepSamples dbs i, ∃ j, j < i + 1 ∧ stepOutcome dbs i j = .ok s) ∧
      (stepSamples dbs i = stepSamples dbs' i →
        stepRowLine dbs i = stepRowLine dbs' i) := by
  intro dbs dbs'
  refine ⟨?_, ?_, ?_, ?_⟩
  · unfold stepSamples
    exact length_filterMap_eq_length_filter _ _ _ (by
      intro a
      rcases h : stepOutcome dbs i a with e | d <;> simp [h, outcomeOk])
  · unfold stepNumErrors
    congr 1
    apply List.filter_congr
    intro a _
    rcases h : stepOutcome dbs i a with e | d <;> simp [h, outcomeOk]
  · intro s hs
    simp only [stepSamples, List.mem_filterMap, List.mem_range] at hs
    obtain ⟨j, hj, hjs⟩ := hs
    refine ⟨j, hj, ?_⟩
    rcases h : stepOutcome dbs i j with e | d <;> simp [h] at hjs <;> simp [h, hjs]
  · intro hEq
    simp [stepRowLine, hEq]

/-- Witness for C5 at step index 0 with the all-success collaborator. -/
theorem step_error_sample_contributions_witness :
    (stepSamples (fun _ _ => dbOk) 0).length =
      ((List.range 1).filter (fun j =>
        outcomeOk (stepOutcome (fun _ _ => dbOk) 0 j))).length ∧
    stepRowLine (fun _ _ => dbOk) 0 = stepRowLine (fun _ _ => dbOk) 0 :=
  ⟨(step_error_sample_contributions 0 (by norm_num [numLoops])
      (fun _ _ => dbOk) (fun _ _ => dbOk)).1,
   (step_error_sample_contributions 0 (by norm_num [numLoops])
      (fun _ _ => dbOk) (fun _ _ => dbOk)).2.2.2 rfl⟩

/-- C8 counterexample: the stderr stream does not carry only the header and
CSV data lines — when a workload unit fails, its diagnostic line
(line 134) is written to the same stream. -/
theorem benchmarkStderr_contains_diagnostics :
    ¬ (∀ line ∈ benchmarkStderr numLoops (fun _ _ => dbFail),
        line = StderrLine.header ∨
          ∃ c p50 p75 p95, line = StderrLine.row c p50 p75 p95) := by
  intro h
  have h0 : (0 : Nat) ∈ List.range numLoops := by simp [numLoops]
  have hline : StderrLine.workErr
      ("Error during work loop: Error beginning transaction: down")
      ∈ stepStderr (fun _ _ => dbFail) 0 := by decide
  have hmem : StderrLine.workErr
      ("Error during work loop: Error beginning transaction: down")
      ∈ benchmarkStderr numLoops (fun _ _ => dbFail) :=
    List.mem_cons_of_mem _ (List.mem_flatten.mpr
      ⟨stepStderr (fun _ _ => dbFail) 0, List.mem_map.mpr ⟨0, h0, rfl⟩, hline⟩)
  rcases h _ hmem with h1 | ⟨c, p50, p75, p95, h1⟩ <;> simp at h1

/-- C8 amended: the benchmark-phase stderr stream starts with the single
header line `# connections,p50,p75,p95` (emitted exactly once), carries
exactly one CSV data line per ramp step in ascending `n` order — each with
the step's connection count and its p50/p75/p95 values in seconds — and,
when no workload unit fails, consists of exactly the header followed by
those data lines; failed units additionally write diagnostic lines to the
same stream. -/
theorem benchmarkStderr_stream_shape (loops : Nat) (dbs : Nat → Nat → Db) :
    (benchmarkStderr loops dbs).head? = some StderrLine.header ∧
    (benchmarkStderr loops dbs).count StderrLine.header = 1 ∧
    (benchmarkStderr loops dbs).filterMap rowData =
      (List.range loops).map (fun i =>
        (i+1, seconds (percentile 50 (stepSamples dbs i)),
         seconds (percentile 75 (stepSamples dbs i)),
         seconds (percentile 95 (stepSamples dbs i)))) ∧
    ((∀ i j, i < loops → j < i + 1 → outcomeOk (stepOutcome dbs i j) = true) →
      benchmarkStderr loops dbs =
        StderrLine.header :: (List.range loops).map (stepRowLine dbs)) := by
  refine ⟨rfl, count_header_benchmarkStderr dbs loops, benchmarkStderr_rows dbs loops, ?_⟩
  intro hok
  unfold benchmarkStderr
  congr 1
  rw [← flatten_map_singleton (stepRowLine dbs) (List.range loops)]
  congr 1
  apply List.map_congr_left
  intro i hi
  rw [List.mem_range] at hi
  unfold stepStderr
  have herr : (List.range (i+1)).filterMap (fun j =>
      match stepOutcome dbs i j with
      | .ok _ => none
      | .error e =>
        some (StderrLine.workErr ("Error during work loop: " ++ errMsg e))) = [] := by
    rw [List.filterMap_eq_nil_iff]
    intro j hj
    rw [List.mem_range] at hj
    have := hok i j hi hj
    rcases h2 : stepOutcome dbs i j with e | d
    · rw [h2] at this
      simp [outcomeOk] at this
    · simp [h2]
  simp [herr]

/-- Witness for the amended C8: with one ramp step and the all-success
collaborator, the stream is exactly the header followed by the one data
line. -/
theorem benchmarkStderr_stream_shape_witness :
    (benchmarkStderr 1 (fun _ _ => dbOk)).head? = some StderrLine.header ∧
    benchmarkStderr 1 (fun _ _ => dbOk) =
      StderrLine.header :: (List.range 1).map (stepRowLine (fun _ _ => dbOk)) :=
  ⟨(benchmarkStderr_stream_shape 1 (fun _ _ => dbOk)).1,
   (benchmarkStderr_stream_shape 1 (fun _ _ => dbOk)).2.2.2 (fun i j hi hj => by
      have hi0 : i = 0 := by omega
      subst hi0
      have hj0 : j = 0 := by omega
      subst hj0
      decide)⟩

/-- C10: if any single workload-unit invocation fails during the sequential
warm-up pass, the whole pass aborts the process (the `panic` on line 97,
modelled as `Except.error`); in contrast, the timed benchmark phase emits
its per-step result row for every step no matter which invocations fail. -/
theorem warmup_failure_aborts (loops : Nat) (dbs0 : Nat → Db)
    (h : ∃ k, k < loops ∧ ∃ e, run (dbs0 k) k = Except.error e) :
    (∃ e, warmup loops dbs0 = Except.error e) ∧
    (∀ dbs : Nat → Nat → Db,
      ((benchmarkStderr loops dbs).filterMap rowData).length = loops) := by
  obtain ⟨k, hk, he⟩ := h
  refine ⟨warmupAux_error dbs0 loops 0 ⟨k, by omega, by omega, he⟩, ?_⟩
  intro dbs
  simp [benchmarkStderr_rows dbs loops]

/-- Witness for C10: with one slot whose collaborator is down, the warm-up
aborts, while a one-step benchmark phase still emits its row. -/
theorem warmup_failure_aborts_witness :
    (∃ e, warmup 1 (fun _ => dbFail) = Except.error e) ∧
    ((benchmarkStderr 1 (fun _ _ => dbOk)).filterMap rowData).length = 1 :=
  ⟨(warmup_failure_aborts 1 (fun _ => dbFail)
      ⟨0, by norm_num, RunError.transactionError "Error beginning transaction: down",
        rfl⟩).1,
   (warmup_failure_aborts 1 (fun _ => dbFail)
      ⟨0, by norm_num, RunError.transactionError "Error beginning transaction: down",
        rfl⟩).2 (fun _ _ => dbOk)⟩

end ConnTest
